import Mathlib

/-!
Verification of the wasmer dylib-engine trampoline builder
(`src/lib/engine-dylib/src/trampoline.rs`) and the C API memory wrappers
(`src/lib/runtime-c-api/src/memory.rs`), as a shallow embedding.

The object-file writer (`object` crate) is modelled by the small subset of
its `write::Object` API that the trampoline code uses: symbol addition,
data/bss appending with alignment, relocation recording.  Only the text and
bss sections ever receive data here, so the object state keeps one byte list
for text and one length for bss (bss bytes are zero by definition, which is
what "zero-initialized/uninitialized data section" means).
-/

namespace Wasmer

/-- Relocation kinds used by the trampoline emitter, mirroring
`object::RelocationKind`: format-specific ELF and Mach-O codes plus the
generic PC-relative kind. -/
inductive RelocationKind where
  | Elf (code : Nat)
  | MachO (value : Nat) (relative : Bool)
  | Relative
deriving DecidableEq

/-- A relocation record as built in `emit_trampoline` (the encoding field is
always `RelocationEncoding::Generic` and is omitted). `symbol` is a symbol
id (index into the object's symbol list). -/
structure Relocation where
  offset : Nat
  size : Nat
  kind : RelocationKind
  symbol : Nat
  addend : Int
deriving DecidableEq

/-- `object::SymbolKind`, restricted to the kinds the trampoline code uses. -/
inductive SymbolKind where
  | Text
  | Data
deriving DecidableEq

/-- `object::SymbolScope`, restricted to the scopes the trampoline code uses:
`Compilation` is module-internal, `Dynamic` is exported from the dylib. -/
inductive SymbolScope where
  | Compilation
  | Dynamic
deriving DecidableEq

/-- `object::write::SymbolSection`: every symbol here is defined in a section,
identified by its section id. -/
inductive SymbolSection where
  | Section (id : Nat)
deriving DecidableEq

/-- `object::write::Symbol` with the fields the trampoline code sets
(`flags` is always `SymbolFlags::None` and is omitted; `section` is spelled
`sect` because `section` is a Lean keyword). -/
structure Symbol where
  name : String
  value : Nat
  size : Nat
  kind : SymbolKind
  scope : SymbolScope
  weak : Bool
  sect : SymbolSection
deriving DecidableEq

/-- Section id of the text (executable code) section,
`obj.section_id(StandardSection::Text)`. -/
def textSection : Nat := 0

/-- Section id of the zero-initialized data section,
`obj.section_id(StandardSection::UninitializedData)`. -/
def bssSection : Nat := 1

/-- The object being written: symbol list, text-section bytes, text-section
relocations, and the reserved length of the bss section. -/
structure Object where
  symbols : List Symbol
  textData : List Nat
  textRelocs : List Relocation
  bssLen : Nat
deriving DecidableEq

/-- Round `n` up to a multiple of `a` (the `object` crate's `align`). -/
def alignUp (n a : Nat) : Nat :=
  if a = 0 then n else ((n + a - 1) / a) * a

/-- Replace the element at index `i` by `f` of it (identity out of range). -/
def modifyAt {α : Type} (l : List α) (i : Nat) (f : α → α) : List α :=
  match l, i with
  | [], _ => []
  | x :: xs, 0 => f x :: xs
  | x :: xs, i+1 => x :: modifyAt xs i f

/-- `Object::add_symbol`: append the symbol, return its id. -/
def Object.add_symbol (obj : Object) (s : Symbol) : Object × Nat :=
  ({ obj with symbols := obj.symbols ++ [s] }, obj.symbols.length)

/-- `Object::add_symbol_data(symbol, section, data, align)`: align the
section size up, append the data (the padding bytes are zero), point the
symbol at the appended bytes, and return their offset.  The trampoline code
only ever appends data to the text section. -/
def Object.add_symbol_data (obj : Object) (symbolId : Nat) (sectionId : Nat)
    (data : List Nat) (align : Nat) : Object × Nat :=
  let offset := alignUp obj.textData.length align
  let obj' := { obj with
    textData := obj.textData ++ List.replicate (offset - obj.textData.length) 0 ++ data,
    symbols := modifyAt obj.symbols symbolId fun s =>
      { s with value := offset, size := data.length, sect := .Section sectionId } }
  (obj', offset)

/-- `Object::add_symbol_bss(symbol, section, size, align)`: reserve `size`
zero bytes in the bss section at an `align`-aligned offset and point the
symbol at them. -/
def Object.add_symbol_bss (obj : Object) (symbolId : Nat) (sectionId : Nat)
    (size : Nat) (align : Nat) : Object × Nat :=
  let offset := alignUp obj.bssLen align
  let obj' := { obj with
    bssLen := offset + size,
    symbols := modifyAt obj.symbols symbolId fun s =>
      { s with value := offset, size := size, sect := .Section sectionId } }
  (obj', offset)

/-- `Object::set_symbol_data(symbol, section, offset, size)`: redirect an
existing symbol to the given section, offset and size (no bytes are added). -/
def Object.set_symbol_data (obj : Object) (symbolId : Nat) (sectionId : Nat)
    (offset : Nat) (size : Nat) : Object :=
  { obj with symbols := modifyAt obj.symbols symbolId fun s =>
      { s with value := offset, size := size, sect := .Section sectionId } }

/-- `Object::add_relocation`: record the relocation (always in the text
section here; the `Result` it returns is always `Ok` for these inputs, and
the source unwraps it). -/
def Object.add_relocation (obj : Object) (_sectionId : Nat) (r : Relocation) : Object :=
  { obj with textRelocs := obj.textRelocs ++ [r] }

/-- `wasmer_compiler::Architecture`, collapsed to the cases
`emit_trampoline` distinguishes: AArch64, x86-64, and everything else. -/
inductive Architecture where
  | Aarch64
  | X86_64
  | OtherArch
deriving DecidableEq

/-- `wasmer_compiler::BinaryFormat`, collapsed to the cases
`emit_trampoline` distinguishes: ELF, Mach-O, and everything else. -/
inductive BinaryFormat where
  | Elf
  | Macho
  | OtherFormat
deriving DecidableEq

/-- The target triple data `emit_trampoline` consults. -/
structure Target where
  architecture : Architecture
  binary_format : BinaryFormat
deriving DecidableEq

/-- ELF relocation code `R_AARCH64_ADR_PREL_PG_HI21` (page of the target). -/
def R_AARCH64_ADR_PREL_PG_HI21 : Nat := 275

/-- ELF relocation code `R_AARCH64_LDST64_ABS_LO12_NC` (page offset). -/
def R_AARCH64_LDST64_ABS_LO12_NC : Nat := 286

/-- Mach-O relocation type `ARM64_RELOC_PAGE21`. -/
def ARM64_RELOC_PAGE21 : Nat := 3

/-- Mach-O relocation type `ARM64_RELOC_PAGEOFF12`. -/
def ARM64_RELOC_PAGEOFF12 : Nat := 4

/-- Symbol exported from the dynamic library which points to the trampoline
table. -/
def WASMER_TRAMPOLINES_SYMBOL : String := "WASMER_TRAMPOLINES"

/-- Internal symbol with local scope that can't be preempted by external
symbols. -/
def WASMER_TRAMPOLINES_SYMBOL_INTERNAL : String := "WASMER_TRAMPOLINES_INTERNAL"

/-- The 12-byte AArch64 trampoline stub:
`ADRP x17, #...` ; `LDR x17, [x17, #...]` ; `BR x17`. -/
def AARCH64_TRAMPOLINE : List Nat :=
  [0x11, 0x00, 0x00, 0x90, 0x31, 0x02, 0x40, 0xf9, 0x20, 0x02, 0x1f, 0xd6]

/-- The 6-byte x86-64 trampoline stub: `JMP [RIP + ...]`. -/
def X86_64_TRAMPOLINE : List Nat := [0xff, 0x25, 0x00, 0x00, 0x00, 0x00]

/-- Modelled from the spec: the `wasmer_vm::libcalls::LibCall` enumeration is
not under `src/`; the spec describes it as "a stable enumeration" of the
runtime routines, one 8-byte table slot per variant.  A libcall is modelled
by its discriminant, a natural number below the variant count, and
`into_enum_iter` yields every variant in discriminant order. -/
def LibCall.into_enum_iter (VARIANT_COUNT : Nat) : List Nat :=
  List.range VARIANT_COUNT

/-- `emit_trampoline(obj, text, trampoline_table, libcall, target)`.
The libcall argument is its discriminant together with its name function
(`LibCall::to_function_name`, not under `src/`, passed as a parameter).
A Rust `panic!` is modelled by returning `some message` in the second
component, together with the object state at the moment of the panic; a
normal return is `none`. -/
def emit_trampoline (obj : Object) (text : Nat) (trampoline_table : Nat)
    (libcall : Nat) (to_function_name : Nat → String) (target : Target) :
    Object × Option String :=
  let function_name := to_function_name libcall
  let p := obj.add_symbol
    { name := function_name, value := 0, size := 0, kind := .Text,
      scope := .Compilation, weak := false, sect := .Section text }
  let obj1 := p.1
  let libcall_symbol := p.2
  match target.architecture with
  | .Aarch64 =>
    let relocs : Option (RelocationKind × RelocationKind) :=
      match target.binary_format with
      | .Elf => some (.Elf R_AARCH64_ADR_PREL_PG_HI21, .Elf R_AARCH64_LDST64_ABS_LO12_NC)
      | .Macho => some (.MachO ARM64_RELOC_PAGE21 true, .MachO ARM64_RELOC_PAGEOFF12 false)
      | .OtherFormat => none
    match relocs with
    | none => (obj1, some "Unsupported binary format on AArch64")
    | some (reloc1, reloc2) =>
      let q := obj1.add_symbol_data libcall_symbol text AARCH64_TRAMPOLINE 4
      let obj2 := q.1
      let offset := q.2
      let obj3 := obj2.add_relocation text
        { offset := offset, size := 32, kind := reloc1,
          symbol := trampoline_table, addend := (libcall : Int) * 8 }
      let obj4 := obj3.add_relocation text
        { offset := offset + 4, size := 32, kind := reloc2,
          symbol := trampoline_table, addend := (libcall : Int) * 8 }
      (obj4, none)
  | .X86_64 =>
    let q := obj1.add_symbol_data libcall_symbol text X86_64_TRAMPOLINE 1
    let obj2 := q.1
    let offset := q.2
    -- -4 because RIP-relative addressing starts from the end of the instruction.
    let obj3 := obj2.add_relocation text
      { offset := offset + 2, size := 32, kind := .Relative,
        symbol := trampoline_table, addend := (libcall : Int) * 8 - 4 }
    (obj3, none)
  | .OtherArch => (obj1, some "Unsupported architecture")

/-- The `for libcall in LibCall::into_enum_iter()` loop body of
`emit_trampolines`, as a fold: a panic (`some message`) stops the loop, as
in Rust. -/
def emitLoop (t : Target) (text trampoline_table : Nat)
    (to_function_name : Nat → String) (l : List Nat)
    (start : Object × Option String) : Object × Option String :=
  l.foldl
    (fun acc libcall =>
      match acc.2 with
      | some e => (acc.1, some e)
      | none => emit_trampoline acc.1 text trampoline_table
          libcall to_function_name t)
    start

/-- `emit_trampolines(obj, target)`: create the dynamic-scope table symbol
over a bss reservation of `VARIANT_COUNT * 8` bytes aligned to 8, create the
internal alias, and emit one stub per libcall.  `VARIANT_COUNT` and
`to_function_name` stand for the `LibCall` enumeration data that is not
under `src/`. -/
def emit_trampolines (obj : Object) (target : Target) (VARIANT_COUNT : Nat)
    (to_function_name : Nat → String) : Object × Option String :=
  let text := textSection
  let bss := bssSection
  let p := obj.add_symbol
    { name := WASMER_TRAMPOLINES_SYMBOL, value := 0, size := 0, kind := .Data,
      scope := .Dynamic, weak := false, sect := .Section bss }
  let obj1 := p.1
  let trampoline_table := p.2
  let obj2 := (obj1.add_symbol_bss trampoline_table bss (VARIANT_COUNT * 8) 8).1
  let q := obj2.add_symbol
    { name := WASMER_TRAMPOLINES_SYMBOL_INTERNAL, value := 0, size := 0,
      kind := .Data, scope := .Compilation, weak := false, sect := .Section bss }
  let obj3 := q.1
  let trampoline_table_internal := q.2
  let tableSym := (obj3.symbols.get? trampoline_table).getD
    { name := "", value := 0, size := 0, kind := .Data, scope := .Dynamic,
      weak := false, sect := .Section bss }
  let obj4 := obj3.set_symbol_data trampoline_table_internal text
    tableSym.value tableSym.size
  emitLoop target text trampoline_table_internal to_function_name
    (LibCall.into_enum_iter VARIANT_COUNT) (obj4, none)

/-- `fill_trampoline_table(table)`: for every libcall, write its function
pointer into the table slot `table.add(libcall as usize)`, i.e. the slot at
byte address `table + libcall * 8` (pointers are 8 bytes).  Memory is
modelled as a map from slot byte addresses to 8-byte values;
`function_pointer` stands for `LibCall::function_pointer`, which is not
under `src/`. -/
def fill_trampoline_table (function_pointer : Nat → Nat) (VARIANT_COUNT : Nat)
    (table : Nat) (mem : Nat → Nat) : Nat → Nat :=
  (LibCall.into_enum_iter VARIANT_COUNT).foldl
    (fun m libcall => fun a =>
      if a = table + libcall * 8 then function_pointer libcall else m a)
    mem

/-! ## C API memory wrappers (`src/lib/runtime-c-api/src/memory.rs`)

A C pointer argument is modelled as `Option`: `none` is the null pointer.
A function that dereferences its argument without a null check returns an
`Option` result, `none` on null input marking the undefined behaviour of
dereferencing null; a function that null-checks returns a total result. -/

/-- `wasmer_result_t`. -/
inductive wasmer_result_t where
  | WASMER_OK
  | WASMER_ERROR
deriving DecidableEq

/-- `wasmer_limit_option_t`: an optional `u32` as a flag plus value. -/
structure wasmer_limit_option_t where
  has_some : Bool
  some : Nat
deriving DecidableEq

/-- `wasmer_limits_t`: minimum pages and optional maximum pages. -/
structure wasmer_limits_t where
  min : Nat
  max : wasmer_limit_option_t
deriving DecidableEq

/-- `wasmer_memory_new(memory, limits)`.  `MemoryDescriptor::new` and
`Memory::new` live outside `src/` and are taken as parameters (any fallible
functions).  The result records the side effects: the returned
`wasmer_result_t`, the value written through the out-parameter `memory`
(`none` when the out-parameter is not written), and the message passed to
`update_last_error` (`none` when the last error is not updated). -/
def wasmer_memory_new {Desc Mem : Type}
    (MemoryDescriptor_new : Nat → Option Nat → Bool → Except String Desc)
    (Memory_new : Desc → Except String Mem)
    (limits : wasmer_limits_t) :
    wasmer_result_t × Option Mem × Option String :=
  let max := if limits.max.has_some then some limits.max.some else none
  let desc := MemoryDescriptor_new limits.min max false
  match desc with
  | .error error => (.WASMER_ERROR, none, some error)
  | .ok new_desc =>
    match Memory_new new_desc with
    | .error error => (.WASMER_ERROR, none, some error)
    | .ok new_memory => (.WASMER_OK, some new_memory, none)

/-- Modelled from the spec: `wasmer_runtime::Memory` is not under `src/`.
The C wrappers use only its size in pages (`size()` returns `Pages`, a
`u32` count of 64 KiB wasm pages, so `size().bytes()` is `pages * 65536`)
and the base address of its data view. -/
structure Memory where
  pages : Nat
  data_ptr : Nat
deriving DecidableEq

/-- `Pages::bytes()`: a wasm page is 65536 bytes. -/
def Pages.bytes (pages : Nat) : Nat := pages * 65536

/-- `wasmer_memory_length`: returns 0 on a null pointer, else the size in
pages (`u32`). -/
def wasmer_memory_length (memory : Option Memory) : Nat :=
  match memory with
  | none => 0
  | some m => m.pages

/-- `wasmer_memory_data`: dereferences its argument with no null check
(`none` on null input marks undefined behaviour) and returns the view's
base pointer. -/
def wasmer_memory_data (mem : Option Memory) : Option Nat :=
  mem.map fun m => m.data_ptr

/-- `wasmer_memory_data_length`: dereferences its argument with no null
check (`none` on null input marks undefined behaviour); the byte size
`size().bytes()` is a `usize` and is returned as `len as u32`, i.e. reduced
modulo `2^32`. -/
def wasmer_memory_data_length (mem : Option Memory) : Option Nat :=
  mem.map fun m => (Pages.bytes m.pages) % 2 ^ 32

/-- `wasmer_memory_destroy`: frees the memory unless the pointer is null.
The returned boolean records whether a deallocation (`Box::from_raw` and
drop) happened. -/
def wasmer_memory_destroy (memory : Option Memory) : Bool :=
  match memory with
  | none => false
  | some _ => true

/-! ## Helpers for the statements -/

/-- The architecture/binary-format pairs for which `emit_trampoline` has
emission rules: x86-64 with any binary format, or AArch64 with ELF or
Mach-O. -/
def supportedTarget (t : Target) : Prop :=
  t.architecture = .X86_64 ∨
    (t.architecture = .Aarch64 ∧
      (t.binary_format = .Elf ∨ t.binary_format = .Macho))

instance (t : Target) : Decidable (supportedTarget t) := by
  unfold supportedTarget; infer_instance

/-- Stub size per architecture: 12 bytes on AArch64, 6 on x86-64. -/
def stubSize (t : Target) : Nat :=
  match t.architecture with
  | .Aarch64 => 12
  | _ => 6

/-- Stub alignment per architecture, as passed to `add_symbol_data`. -/
def stubAlign (t : Target) : Nat :=
  match t.architecture with
  | .Aarch64 => 4
  | _ => 1

/-- A fresh object, before any emission. -/
def emptyObject : Object :=
  { symbols := [], textData := [], textRelocs := [], bssLen := 0 }

/-- x86-64 ELF target. -/
def x86ElfTarget : Target :=
  { architecture := .X86_64, binary_format := .Elf }

/-- AArch64 ELF target. -/
def aarch64ElfTarget : Target :=
  { architecture := .Aarch64, binary_format := .Elf }

/-- AArch64 Mach-O target. -/
def aarch64MachoTarget : Target :=
  { architecture := .Aarch64, binary_format := .Macho }

/-! ## Lemmas about the object-model primitives -/

theorem alignUp_one (n : Nat) : alignUp n 1 = n := by
  simp [alignUp]

theorem alignUp_eq_of_dvd {a n : Nat} (h : a ∣ n) : alignUp n a = n := by
  rcases h with ⟨k, rfl⟩
  rcases Nat.eq_zero_or_pos a with ha | ha
  · simp [alignUp, ha]
  · have hane : a ≠ 0 := Nat.pos_iff_ne_zero.mp ha
    unfold alignUp
    rw [if_neg hane]
    have h1 : a * k + a - 1 = a * k + (a - 1) := by omega
    rw [h1, Nat.mul_add_div ha]
    have h2 : (a - 1) / a = 0 := Nat.div_eq_of_lt (by omega)
    rw [h2, Nat.add_zero, Nat.mul_comm]

theorem dvd_alignUp (n : Nat) {a : Nat} (ha : 0 < a) : a ∣ alignUp n a := by
  unfold alignUp
  rw [if_neg (Nat.pos_iff_ne_zero.mp ha)]
  exact dvd_mul_left a _

theorem modifyAt_length {α : Type} (l : List α) (i : Nat) (f : α → α) :
    (modifyAt l i f).length = l.length := by
  induction l generalizing i with
  | nil => rfl
  | cons x xs ih =>
    cases i with
    | zero => rfl
    | succ n => simp [modifyAt, ih]

theorem modifyAt_append_add {α : Type} (l r : List α) (k : Nat) (f : α → α) :
    modifyAt (l ++ r) (l.length + k) f = l ++ modifyAt r k f := by
  induction l with
  | nil => simp
  | cons x xs ih =>
    have hlen : (x :: xs).length + k = (xs.length + k) + 1 := by
      simp [List.length_cons]; omega
    rw [List.cons_append, hlen]
    show x :: modifyAt (xs ++ r) (xs.length + k) f = x :: (xs ++ modifyAt r k f)
    rw [ih]

theorem modifyAt_append_length {α : Type} (l r : List α) (x : α) (f : α → α) :
    modifyAt (l ++ x :: r) l.length f = l ++ f x :: r := by
  have h := modifyAt_append_add l (x :: r) 0 f
  simpa [modifyAt] using h

theorem get?_append_length {α : Type} (l r : List α) (x : α) :
    (l ++ x :: r).get? l.length = some x := by
  induction l with
  | nil => rfl
  | cons y ys ih => simpa using ih

theorem modifyAt_cons_one {α : Type} (x : α) (xs : List α) (f : α → α) :
    modifyAt (x :: xs) 1 f = x :: modifyAt xs 0 f := rfl

theorem modifyAt_cons_zero {α : Type} (x : α) (xs : List α) (f : α → α) :
    modifyAt (x :: xs) 0 f = f x :: xs := rfl

theorem stubAlign_dvd_stubSize (t : Target) : stubAlign t ∣ stubSize t := by
  rcases t with ⟨arch, fmt⟩
  cases arch <;> norm_num [stubAlign, stubSize]

/-! ## Characterization of one stub emission, per supported target -/

theorem emit_trampoline_x86 (obj : Object) (text tt i : Nat) (nm : Nat → String)
    (fmt : BinaryFormat) :
    emit_trampoline obj text tt i nm { architecture := .X86_64, binary_format := fmt }
      = ({ symbols := obj.symbols ++
             [{ name := nm i, value := obj.textData.length, size := 6,
                kind := .Text, scope := .Compilation, weak := false,
                sect := .Section text }],
           textData := obj.textData ++ X86_64_TRAMPOLINE,
           textRelocs := obj.textRelocs ++
             [{ offset := obj.textData.length + 2, size := 32, kind := .Relative,
                symbol := tt, addend := (i : Int) * 8 - 4 }],
           bssLen := obj.bssLen }, none) := by
  simp [emit_trampoline, Object.add_symbol, Object.add_symbol_data,
    Object.add_relocation, alignUp_one, modifyAt_append_length,
    X86_64_TRAMPOLINE]

theorem emit_trampoline_aarch64_elf (obj : Object) (text tt i : Nat)
    (nm : Nat → String) :
    emit_trampoline obj text tt i nm aarch64ElfTarget
      = ({ symbols := obj.symbols ++
             [{ name := nm i, value := alignUp obj.textData.length 4, size := 12,
                kind := .Text, scope := .Compilation, weak := false,
                sect := .Section text }],
           textData := obj.textData ++
             List.replicate (alignUp obj.textData.length 4 - obj.textData.length) 0 ++
             AARCH64_TRAMPOLINE,
           textRelocs := obj.textRelocs ++
             [{ offset := alignUp obj.textData.length 4, size := 32,
                kind := .Elf R_AARCH64_ADR_PREL_PG_HI21, symbol := tt,
                addend := (i : Int) * 8 },
              { offset := alignUp obj.textData.length 4 + 4, size := 32,
                kind := .Elf R_AARCH64_LDST64_ABS_LO12_NC, symbol := tt,
                addend := (i : Int) * 8 }],
           bssLen := obj.bssLen }, none) := by
  simp [emit_trampoline, aarch64ElfTarget, Object.add_symbol,
    Object.add_symbol_data, Object.add_relocation, modifyAt_append_length,
    AARCH64_TRAMPOLINE]

theorem emit_trampoline_aarch64_macho (obj : Object) (text tt i : Nat)
    (nm : Nat → String) :
    emit_trampoline obj text tt i nm aarch64MachoTarget
      = ({ symbols := obj.symbols ++
             [{ name := nm i, value := alignUp obj.textData.length 4, size := 12,
                kind := .Text, scope := .Compilation, weak := false,
                sect := .Section text }],
           textData := obj.textData ++
             List.replicate (alignUp obj.textData.length 4 - obj.textData.length) 0 ++
             AARCH64_TRAMPOLINE,
           textRelocs := obj.textRelocs ++
             [{ offset := alignUp obj.textData.length 4, size := 32,
                kind := .MachO ARM64_RELOC_PAGE21 true, symbol := tt,
                addend := (i : Int) * 8 },
              { offset := alignUp obj.textData.length 4 + 4, size := 32,
                kind := .MachO ARM64_RELOC_PAGEOFF12 false, symbol := tt,
                addend := (i : Int) * 8 }],
           bssLen := obj.bssLen }, none) := by
  simp [emit_trampoline, aarch64MachoTarget, Object.add_symbol,
    Object.add_symbol_data, Object.add_relocation, modifyAt_append_length,
    AARCH64_TRAMPOLINE]

/-- On a supported target, one stub emission does not panic, appends exactly
one symbol, leaves the bss section alone, and grows the text section by
exactly the stub size (given that the text size is stub-aligned, which the
emission preserves). -/
theorem emit_trampoline_step (obj : Object) (text tt i : Nat) (nm : Nat → String)
    (t : Target) (hs : supportedTarget t) (ha : stubAlign t ∣ obj.textData.length) :
    (emit_trampoline obj text tt i nm t).2 = none ∧
    (∃ s, (emit_trampoline obj text tt i nm t).1.symbols = obj.symbols ++ [s]) ∧
    (emit_trampoline obj text tt i nm t).1.bssLen = obj.bssLen ∧
    (emit_trampoline obj text tt i nm t).1.textData.length
      = obj.textData.length + stubSize t := by
  rcases t with ⟨arch, fmt⟩
  rcases hs with harch | ⟨harch, hfmt⟩
  · simp only at harch
    subst harch
    rw [emit_trampoline_x86]
    refine ⟨rfl, ⟨_, rfl⟩, rfl, ?_⟩
    simp [X86_64_TRAMPOLINE, stubSize]
  · simp only at harch
    subst harch
    have halign : alignUp obj.textData.length 4 = obj.textData.length :=
      alignUp_eq_of_dvd (by simpa [stubAlign] using ha)
    rcases hfmt with hfmt | hfmt <;> simp only at hfmt <;> subst hfmt
    · rw [show (Target.mk .Aarch64 .Elf) = aarch64ElfTarget from rfl,
        emit_trampoline_aarch64_elf]
      refine ⟨rfl, ⟨_, rfl⟩, rfl, ?_⟩
      simp [halign, AARCH64_TRAMPOLINE, stubSize, aarch64ElfTarget]
    · rw [show (Target.mk .Aarch64 .Macho) = aarch64MachoTarget from rfl,
        emit_trampoline_aarch64_macho]
      refine ⟨rfl, ⟨_, rfl⟩, rfl, ?_⟩
      simp [halign, AARCH64_TRAMPOLINE, stubSize, aarch64MachoTarget]

/-- Shape of the whole stub-emission loop on a supported target: no panic,
one appended symbol per libcall, bss untouched, text grown by one stub per
libcall. -/
theorem emitLoop_shape (t : Target) (text tt : Nat) (nm : Nat → String)
    (hs : supportedTarget t) (l : List Nat) :
    ∀ (obj : Object), stubAlign t ∣ obj.textData.length →
      (emitLoop t text tt nm l (obj, none)).2 = none ∧
      (∃ syms, (emitLoop t text tt nm l (obj, none)).1.symbols
          = obj.symbols ++ syms ∧ syms.length = l.length) ∧
      (emitLoop t text tt nm l (obj, none)).1.bssLen = obj.bssLen ∧
      (emitLoop t text tt nm l (obj, none)).1.textData.length
        = obj.textData.length + l.length * stubSize t := by
  induction l with
  | nil =>
    intro obj ha
    exact ⟨rfl, ⟨[], by simp [emitLoop], rfl⟩, rfl, by simp [emitLoop]⟩
  | cons x xs ih =>
    intro obj ha
    obtain ⟨h2, ⟨s, hsym⟩, hbss, hlen⟩ := emit_trampoline_step obj text tt x nm t hs ha
    have hE : emit_trampoline obj text tt x nm t
        = ((emit_trampoline obj text tt x nm t).1, none) := by
      rw [← h2]
    have hstep : emitLoop t text tt nm (x :: xs) (obj, none)
        = emitLoop t text tt nm xs (emit_trampoline obj text tt x nm t) := rfl
    have ha' : stubAlign t ∣ (emit_trampoline obj text tt x nm t).1.textData.length := by
      rw [hlen]
      exact Nat.dvd_add ha (stubAlign_dvd_stubSize t)
    obtain ⟨g2, ⟨syms, hsyms, hslen⟩, gbss, glen⟩ :=
      ih (emit_trampoline obj text tt x nm t).1 ha'
    rw [hstep, hE]
    refine ⟨g2, ⟨s :: syms, ?_, by simp [hslen]⟩, by rw [gbss, hbss], ?_⟩
    · rw [hsyms, hsym]
      simp
    · rw [glen, hlen, hsym] at *
      simp [List.length_cons]
      ring

/-- Unfolding of `emit_trampolines` up to the stub loop: the dynamic-scope
table symbol sits over the 8-aligned bss reservation of `VARIANT_COUNT * 8`
bytes, and the internal alias is redirected (by `set_symbol_data` with the
`text` section id) to the text section at the same offset and size; the
loop then runs with the internal symbol's id. -/
theorem emit_trampolines_start (obj : Object) (t : Target) (N : Nat)
    (nm : Nat → String) :
    emit_trampolines obj t N nm =
      emitLoop t textSection (obj.symbols.length + 1) nm (List.range N)
        ({ symbols := obj.symbols ++
             [{ name := WASMER_TRAMPOLINES_SYMBOL, value := alignUp obj.bssLen 8,
                size := N * 8, kind := .Data, scope := .Dynamic, weak := false,
                sect := .Section bssSection },
              { name := WASMER_TRAMPOLINES_SYMBOL_INTERNAL,
                value := alignUp obj.bssLen 8, size := N * 8, kind := .Data,
                scope := .Compilation, weak := false,
                sect := .Section textSection }],
           textData := obj.textData, textRelocs := obj.textRelocs,
           bssLen := alignUp obj.bssLen 8 + N * 8 }, none) := by
  simp only [emit_trampolines, Object.add_symbol, Object.add_symbol_bss,
    Object.set_symbol_data, LibCall.into_enum_iter, modifyAt_append_length,
    modifyAt_append_add, List.length_append, List.length_singleton,
    List.append_assoc, List.singleton_append, get?_append_length,
    Option.getD_some, modifyAt_cons_one, modifyAt_cons_zero]

/-! ## Lemmas about `fill_trampoline_table` -/

theorem fill_foldl_preserve (fp : Nat → Nat) (table a : Nat) :
    ∀ (l : List Nat) (mem : Nat → Nat), (∀ j ∈ l, a ≠ table + j * 8) →
      l.foldl (fun m libcall => fun b =>
        if b = table + libcall * 8 then fp libcall else m b) mem a = mem a := by
  intro l
  induction l with
  | nil => intro mem h; rfl
  | cons x xs ih =>
    intro mem h
    have hx : a ≠ table + x * 8 := h x (List.mem_cons_self x xs)
    have h' : ∀ j ∈ xs, a ≠ table + j * 8 :=
      fun j hj => h j (List.mem_cons_of_mem x hj)
    rw [List.foldl_cons, ih _ h']
    simp [hx]

theorem fill_foldl_mem (fp : Nat → Nat) (table : Nat) :
    ∀ (l : List Nat) (mem : Nat → Nat) (i : Nat), i ∈ l → l.Nodup →
      l.foldl (fun m libcall => fun b =>
        if b = table + libcall * 8 then fp libcall else m b) mem (table + i * 8)
        = fp i := by
  intro l
  induction l with
  | nil => intro mem i hi _; exact absurd hi (List.not_mem_nil i)
  | cons x xs ih =>
    intro mem i hi hnd
    rw [List.foldl_cons]
    rcases List.mem_cons.mp hi with hix | hixs
    · subst hix
      have hx : i ∉ xs := (List.nodup_cons.mp hnd).1
      rw [fill_foldl_preserve]
      · simp
      · intro j hj hcontra
        have hji : j = i := by omega
        exact hx (hji ▸ hj)
    · exact ih _ i hixs (List.nodup_cons.mp hnd).2

/-! ## The claims -/

/-- C1, counterexample: on x86-64, the relocation `emit_trampoline` attaches
to libcall 0's stub carries addend `0 * 8 - 4 = -4`, not `0 * 8` as the
claim states for both architectures. -/
theorem c1_addend_counterexample :
    ((emit_trampoline emptyObject textSection 5 0 (fun _ => "f")
        x86ElfTarget).1.textRelocs.map Relocation.addend = [(-4 : Int)]) ∧
      ((-4 : Int) ≠ (0 : Int) * 8) := by
  constructor
  · decide
  · decide

/-- C1, amended: every relocation `emit_trampoline` attaches to libcall
`i`'s stub carries addend `i * 8` on AArch64 (both ELF and Mach-O), and
addend `i * 8 - 4` on x86-64 (the displacement is measured from the end of
the `JMP [RIP + disp]` instruction). -/
theorem c1_addend_amended (obj : Object) (text tt i : Nat) (nm : Nat → String)
    (t : Target) (hs : supportedTarget t) :
    ∃ rs, rs ≠ [] ∧
      (emit_trampoline obj text tt i nm t).1.textRelocs = obj.textRelocs ++ rs ∧
      ∀ r ∈ rs, r.addend =
        if t.architecture = .X86_64 then (i : Int) * 8 - 4 else (i : Int) * 8 := by
  rcases t with ⟨arch, fmt⟩
  rcases hs with harch | ⟨harch, hfmt⟩
  · simp only at harch; subst harch
    refine ⟨[{ offset := obj.textData.length + 2, size := 32,
               kind := .Relative, symbol := tt,
               addend := (i : Int) * 8 - 4 }], by simp, ?_, ?_⟩
    · rw [emit_trampoline_x86]
    · intro r hr
      simp only [List.mem_singleton] at hr
      subst hr
      simp
  · simp only at harch; subst harch
    rcases hfmt with hfmt | hfmt <;> simp only at hfmt <;> subst hfmt
    · refine ⟨[{ offset := alignUp obj.textData.length 4, size := 32,
                 kind := .Elf R_AARCH64_ADR_PREL_PG_HI21, symbol := tt,
                 addend := (i : Int) * 8 },
               { offset := alignUp obj.textData.length 4 + 4, size := 32,
                 kind := .Elf R_AARCH64_LDST64_ABS_LO12_NC, symbol := tt,
                 addend := (i : Int) * 8 }], by simp, ?_, ?_⟩
      · rw [show (Target.mk .Aarch64 .Elf) = aarch64ElfTarget from rfl,
          emit_trampoline_aarch64_elf]
      · intro r hr
        simp only [List.mem_cons, List.mem_singleton, List.not_mem_nil,
          or_false] at hr
        rcases hr with hr | hr <;> subst hr <;> simp
    · refine ⟨[{ offset := alignUp obj.textData.length 4, size := 32,
                 kind := .MachO ARM64_RELOC_PAGE21 true, symbol := tt,
                 addend := (i : Int) * 8 },
               { offset := alignUp obj.textData.length 4 + 4, size := 32,
                 kind := .MachO ARM64_RELOC_PAGEOFF12 false, symbol := tt,
                 addend := (i : Int) * 8 }], by simp, ?_, ?_⟩
      · rw [show (Target.mk .Aarch64 .Macho) = aarch64MachoTarget from rfl,
          emit_trampoline_aarch64_macho]
      · intro r hr
        simp only [List.mem_cons, List.mem_singleton, List.not_mem_nil,
          or_false] at hr
        rcases hr with hr | hr <;> subst hr <;> simp

/-- Witness for `c1_addend_amended` at a concrete input. -/
theorem c1_addend_amended_witness :
    supportedTarget x86ElfTarget ∧
    ∃ rs, rs ≠ [] ∧
      (emit_trampoline emptyObject textSection 5 3 (fun _ => "f")
          x86ElfTarget).1.textRelocs = emptyObject.textRelocs ++ rs ∧
      ∀ r ∈ rs, r.addend =
        if x86ElfTarget.architecture = .X86_64
          then ((3 : Nat) : Int) * 8 - 4 else ((3 : Nat) : Int) * 8 :=
  ⟨by decide,
    c1_addend_amended emptyObject textSection 5 3 (fun _ => "f") x86ElfTarget
      (by decide)⟩

/-- C2: evaluation at a concrete input, exhibiting the bug the claim is
about.  After `emit_trampolines`, the dynamic-scope table symbol is defined
in the bss section, but the "internal alias" has been redirected by
`set_symbol_data(..., text, value, size)` to the TEXT section at the same
offset, so the two symbols do not name the same bytes. -/
theorem c2_internal_alias_in_text_section :
    ((emit_trampolines emptyObject x86ElfTarget 2 (fun _ => "f")).1.symbols.get? 0
      = some { name := WASMER_TRAMPOLINES_SYMBOL, value := 0, size := 16,
               kind := .Data, scope := .Dynamic, weak := false,
               sect := .Section bssSection }) ∧
    ((emit_trampolines emptyObject x86ElfTarget 2 (fun _ => "f")).1.symbols.get? 1
      = some { name := WASMER_TRAMPOLINES_SYMBOL_INTERNAL, value := 0, size := 16,
               kind := .Data, scope := .Compilation, weak := false,
               sect := .Section textSection }) ∧
    textSection ≠ bssSection := by
  refine ⟨by decide, by decide, by decide⟩

/-- C3: on every supported target the stub emitted by `emit_trampoline` is a
fixed byte sequence determined by the architecture alone: the 12-byte
`AARCH64_TRAMPOLINE` (`ADRP`/`LDR`/`BR`) on AArch64, the 6-byte
`X86_64_TRAMPOLINE` (`JMP [RIP+disp]`) on x86-64. -/
theorem c3_stub_fixed_size (obj : Object) (text tt i : Nat) (nm : Nat → String)
    (t : Target) (hs : supportedTarget t) :
    ∃ stub pad,
      (emit_trampoline obj text tt i nm t).1.textData
        = obj.textData ++ List.replicate pad 0 ++ stub ∧
      ((t.architecture = .Aarch64 ∧ stub = AARCH64_TRAMPOLINE ∧ stub.length = 12) ∨
       (t.architecture = .X86_64 ∧ stub = X86_64_TRAMPOLINE ∧ stub.length = 6)) := by
  rcases t with ⟨arch, fmt⟩
  rcases hs with harch | ⟨harch, hfmt⟩
  · simp only at harch; subst harch
    refine ⟨X86_64_TRAMPOLINE, 0, ?_, Or.inr ⟨rfl, rfl, rfl⟩⟩
    rw [emit_trampoline_x86]
    simp
  · simp only at harch; subst harch
    rcases hfmt with hfmt | hfmt <;> simp only at hfmt <;> subst hfmt
    · refine ⟨AARCH64_TRAMPOLINE,
        alignUp obj.textData.length 4 - obj.textData.length, ?_,
        Or.inl ⟨rfl, rfl, rfl⟩⟩
      rw [show (Target.mk .Aarch64 .Elf) = aarch64ElfTarget from rfl,
        emit_trampoline_aarch64_elf]
    · refine ⟨AARCH64_TRAMPOLINE,
        alignUp obj.textData.length 4 - obj.textData.length, ?_,
        Or.inl ⟨rfl, rfl, rfl⟩⟩
      rw [show (Target.mk .Aarch64 .Macho) = aarch64MachoTarget from rfl,
        emit_trampoline_aarch64_macho]

/-- Witness for `c3_stub_fixed_size` at a concrete input. -/
theorem c3_stub_fixed_size_witness :
    supportedTarget aarch64ElfTarget ∧
    ∃ stub pad,
      (emit_trampoline emptyObject textSection 5 0 (fun _ => "f")
          aarch64ElfTarget).1.textData
        = emptyObject.textData ++ List.replicate pad 0 ++ stub ∧
      ((aarch64ElfTarget.architecture = .Aarch64 ∧ stub = AARCH64_TRAMPOLINE ∧
          stub.length = 12) ∨
       (aarch64ElfTarget.architecture = .X86_64 ∧ stub = X86_64_TRAMPOLINE ∧
          stub.length = 6)) :=
  ⟨by decide,
    c3_stub_fixed_size emptyObject textSection 5 0 (fun _ => "f")
      aarch64ElfTarget (by decide)⟩

/-- C4: on any unsupported architecture/binary-format combination,
`emit_trampoline` panics (the second component is `some message`) and the
object state at the panic holds no new stub bytes and no new relocations. -/
theorem c4_unsupported_target_panics (obj : Object) (text tt i : Nat)
    (nm : Nat → String) (t : Target) (hu : ¬ supportedTarget t) :
    (emit_trampoline obj text tt i nm t).2.isSome = true ∧
    (emit_trampoline obj text tt i nm t).1.textData = obj.textData ∧
    (emit_trampoline obj text tt i nm t).1.textRelocs = obj.textRelocs := by
  rcases t with ⟨arch, fmt⟩
  cases arch with
  | X86_64 => exact absurd (Or.inl rfl) hu
  | Aarch64 =>
    cases fmt with
    | Elf => exact absurd (Or.inr ⟨rfl, Or.inl rfl⟩) hu
    | Macho => exact absurd (Or.inr ⟨rfl, Or.inr rfl⟩) hu
    | OtherFormat => exact ⟨rfl, rfl, rfl⟩
  | OtherArch => exact ⟨rfl, rfl, rfl⟩

/-- Witness for `c4_unsupported_target_panics` at a concrete input. -/
theorem c4_unsupported_target_panics_witness :
    ¬ supportedTarget { architecture := .OtherArch, binary_format := .Elf } ∧
    ((emit_trampoline emptyObject textSection 5 0 (fun _ => "f")
        { architecture := .OtherArch, binary_format := .Elf }).2.isSome = true ∧
     (emit_trampoline emptyObject textSection 5 0 (fun _ => "f")
        { architecture := .OtherArch, binary_format := .Elf }).1.textData
        = emptyObject.textData ∧
     (emit_trampoline emptyObject textSection 5 0 (fun _ => "f")
        { architecture := .OtherArch, binary_format := .Elf }).1.textRelocs
        = emptyObject.textRelocs) :=
  ⟨by decide,
    c4_unsupported_target_panics emptyObject textSection 5 0 (fun _ => "f")
      { architecture := .OtherArch, binary_format := .Elf } (by decide)⟩

/-- C5: after `fill_trampoline_table`, the slot at `table + i * 8` holds
exactly libcall `i`'s function pointer for every libcall `i`, and addresses
outside the table's slots are untouched. -/
theorem c5_fill_trampoline_table (fp : Nat → Nat) (N table : Nat)
    (mem : Nat → Nat) (i : Nat) (hi : i < N) :
    fill_trampoline_table fp N table mem (table + i * 8) = fp i ∧
    ∀ a, (∀ j, j < N → a ≠ table + j * 8) →
      fill_trampoline_table fp N table mem a = mem a := by
  constructor
  · exact fill_foldl_mem fp table (List.range N) mem i
      (List.mem_range.mpr hi) (List.nodup_range N)
  · intro a ha
    exact fill_foldl_preserve fp table a (List.range N) mem
      (fun j hj => ha j (List.mem_range.mp hj))

/-- Witness for `c5_fill_trampoline_table` at a concrete input. -/
theorem c5_fill_trampoline_table_witness :
    2 < 3 ∧
    (fill_trampoline_table (fun i => 100 + i) 3 1000 (fun _ => 0)
        (1000 + 2 * 8) = (fun i => 100 + i) 2 ∧
     ∀ a, (∀ j, j < 3 → a ≠ 1000 + j * 8) →
       fill_trampoline_table (fun i => 100 + i) 3 1000 (fun _ => 0) a
         = (fun _ => (0 : Nat)) a) :=
  ⟨by decide,
    c5_fill_trampoline_table (fun i => 100 + i) 3 1000 (fun _ => 0) 2 (by decide)⟩

/-- C6: `emit_trampolines` reserves the trampoline table as a bss array of
exactly `VARIANT_COUNT * 8` bytes at an 8-aligned offset, named by the
dynamic-scope symbol, and emits exactly one stub per libcall over the full
enumeration: two table symbols plus one stub symbol per libcall, and the
text section grows by exactly `VARIANT_COUNT` stubs. -/
theorem c6_table_reservation (obj : Object) (t : Target) (N : Nat)
    (nm : Nat → String) (hs : supportedTarget t)
    (ha : stubAlign t ∣ obj.textData.length) :
    (emit_trampolines obj t N nm).2 = none ∧
    (emit_trampolines obj t N nm).1.symbols.get? obj.symbols.length
      = some { name := WASMER_TRAMPOLINES_SYMBOL, value := alignUp obj.bssLen 8,
               size := N * 8, kind := .Data, scope := .Dynamic, weak := false,
               sect := .Section bssSection } ∧
    alignUp obj.bssLen 8 % 8 = 0 ∧
    (emit_trampolines obj t N nm).1.bssLen = alignUp obj.bssLen 8 + N * 8 ∧
    (emit_trampolines obj t N nm).1.symbols.length
      = obj.symbols.length + 2 + N ∧
    (emit_trampolines obj t N nm).1.textData.length
      = obj.textData.length + N * stubSize t := by
  obtain ⟨g2, ⟨syms, hsyms, hslen⟩, gbss, glen⟩ :=
    emitLoop_shape t textSection (obj.symbols.length + 1) nm hs (List.range N)
      { symbols := obj.symbols ++
          [{ name := WASMER_TRAMPOLINES_SYMBOL, value := alignUp obj.bssLen 8,
             size := N * 8, kind := .Data, scope := .Dynamic, weak := false,
             sect := .Section bssSection },
           { name := WASMER_TRAMPOLINES_SYMBOL_INTERNAL,
             value := alignUp obj.bssLen 8, size := N * 8, kind := .Data,
             scope := .Compilation, weak := false,
             sect := .Section textSection }],
        textData := obj.textData, textRelocs := obj.textRelocs,
        bssLen := alignUp obj.bssLen 8 + N * 8 } ha
  rw [emit_trampolines_start]
  refine ⟨g2, ?_, ?_, ?_, ?_, ?_⟩
  · simp only [hsyms, List.append_assoc, List.cons_append, List.nil_append,
      get?_append_length]
  · obtain ⟨k, hk⟩ := dvd_alignUp obj.bssLen (show 0 < 8 by decide)
    rw [hk]
    exact Nat.mul_mod_right 8 k
  · rw [gbss]
  · rw [hsyms]
    simp only [List.length_append, List.length_cons, List.length_nil,
      List.length_range] at hslen ⊢
    omega
  · rw [glen]
    simp only [List.length_range]

/-- Witness for `c6_table_reservation` at a concrete input. -/
theorem c6_table_reservation_witness :
    supportedTarget x86ElfTarget ∧
    stubAlign x86ElfTarget ∣ emptyObject.textData.length ∧
    ((emit_trampolines emptyObject x86ElfTarget 2 (fun _ => "f")).2 = none ∧
     (emit_trampolines emptyObject x86ElfTarget 2 (fun _ => "f")).1.symbols.get? 0
       = some { name := WASMER_TRAMPOLINES_SYMBOL, value := 0, size := 16,
                kind := .Data, scope := .Dynamic, weak := false,
                sect := .Section bssSection } ∧
     alignUp emptyObject.bssLen 8 % 8 = 0 ∧
     (emit_trampolines emptyObject x86ElfTarget 2 (fun _ => "f")).1.bssLen = 16 ∧
     (emit_trampolines emptyObject x86ElfTarget 2 (fun _ => "f")).1.symbols.length
       = 4 ∧
     (emit_trampolines emptyObject x86ElfTarget 2 (fun _ => "f")).1.textData.length
       = 12) :=
  ⟨by decide, dvd_zero _,
    c6_table_reservation emptyObject x86ElfTarget 2 (fun _ => "f")
      (by decide) (dvd_zero _)⟩

/-- C7: the relocation records `emit_trampoline` attaches to a stub, per
architecture and binary format: on AArch64/ELF two 32-bit relocations at
stub offsets 0 and 4, kinds `R_AARCH64_ADR_PREL_PG_HI21` and
`R_AARCH64_LDST64_ABS_LO12_NC`; on AArch64/Mach-O the pair
`ARM64_RELOC_PAGE21` (pc-relative) and `ARM64_RELOC_PAGEOFF12` (absolute);
on x86-64 (any binary format) one 32-bit relative relocation at stub
offset 2 — all targeting the table symbol passed in (the internal one in
`emit_trampolines`). -/
theorem c7_relocation_records (obj : Object) (text tt i : Nat)
    (nm : Nat → String) :
    ((emit_trampoline obj text tt i nm aarch64ElfTarget).1.textRelocs
      = obj.textRelocs ++
        [{ offset := alignUp obj.textData.length 4, size := 32,
           kind := .Elf R_AARCH64_ADR_PREL_PG_HI21, symbol := tt,
           addend := (i : Int) * 8 },
         { offset := alignUp obj.textData.length 4 + 4, size := 32,
           kind := .Elf R_AARCH64_LDST64_ABS_LO12_NC, symbol := tt,
           addend := (i : Int) * 8 }]) ∧
    ((emit_trampoline obj text tt i nm aarch64MachoTarget).1.textRelocs
      = obj.textRelocs ++
        [{ offset := alignUp obj.textData.length 4, size := 32,
           kind := .MachO ARM64_RELOC_PAGE21 true, symbol := tt,
           addend := (i : Int) * 8 },
         { offset := alignUp obj.textData.length 4 + 4, size := 32,
           kind := .MachO ARM64_RELOC_PAGEOFF12 false, symbol := tt,
           addend := (i : Int) * 8 }]) ∧
    ∀ fmt, (emit_trampoline obj text tt i nm
        { architecture := .X86_64, binary_format := fmt }).1.textRelocs
      = obj.textRelocs ++
        [{ offset := obj.textData.length + 2, size := 32, kind := .Relative,
           symbol := tt, addend := (i : Int) * 8 - 4 }] := by
  refine ⟨?_, ?_, fun fmt => ?_⟩
  · rw [emit_trampoline_aarch64_elf]
  · rw [emit_trampoline_aarch64_macho]
  · rw [emit_trampoline_x86]

/-- C8: `wasmer_memory_new` writes through its out-parameter exactly when it
returns `WASMER_OK`; when it returns `WASMER_ERROR` the out-parameter is
not written and the last-error message is updated, and on success the
last-error message is not touched. -/
theorem c8_memory_new_out_param {Desc Mem : Type}
    (dnew : Nat → Option Nat → Bool → Except String Desc)
    (mnew : Desc → Except String Mem) (limits : wasmer_limits_t) :
    ((wasmer_memory_new dnew mnew limits).1 = .WASMER_OK ↔
      (wasmer_memory_new dnew mnew limits).2.1.isSome = true) ∧
    ((wasmer_memory_new dnew mnew limits).1 = .WASMER_ERROR ↔
      ((wasmer_memory_new dnew mnew limits).2.1 = none ∧
       (wasmer_memory_new dnew mnew limits).2.2.isSome = true)) ∧
    ((wasmer_memory_new dnew mnew limits).1 = .WASMER_OK ↔
      (wasmer_memory_new dnew mnew limits).2.2 = none) := by
  cases hd : dnew limits.min
      (if limits.max.has_some then some limits.max.some else none) false with
  | error e => simp [wasmer_memory_new, hd]
  | ok d =>
    cases hm : mnew d with
    | error e => simp [wasmer_memory_new, hd, hm]
    | ok m => simp [wasmer_memory_new, hd, hm]

/-- C9: at the C interface, `wasmer_memory_length` returns 0 on a null
pointer and `wasmer_memory_destroy` deallocates nothing on a null pointer,
while `wasmer_memory_data` and `wasmer_memory_data_length` have no null
branch: they dereference unconditionally (modelled as the undefined `none`
result on a null argument), and on non-null arguments all four behave as
the code computes. -/
theorem c9_null_pointer_handling :
    wasmer_memory_length none = 0 ∧
    wasmer_memory_destroy none = false ∧
    wasmer_memory_data none = none ∧
    wasmer_memory_data_length none = none ∧
    (∀ m : Memory, wasmer_memory_length (some m) = m.pages) ∧
    (∀ m : Memory, wasmer_memory_destroy (some m) = true) ∧
    (∀ m : Memory, wasmer_memory_data (some m) = some m.data_ptr) ∧
    (∀ m : Memory, wasmer_memory_data_length (some m)
        = some (Pages.bytes m.pages % 2 ^ 32)) :=
  ⟨rfl, rfl, rfl, rfl, fun _ => rfl, fun _ => rfl, fun _ => rfl, fun _ => rfl⟩

/-- C10: `wasmer_memory_data_length` returns the byte size reduced modulo
`2^32`; for any memory whose byte size exceeds `u32::MAX = 4294967295` the
returned value differs from the true byte length. -/
theorem c10_data_length_truncation (m : Memory)
    (h : 4294967295 < Pages.bytes m.pages) :
    wasmer_memory_data_length (some m) = some (Pages.bytes m.pages % 2 ^ 32) ∧
    Pages.bytes m.pages % 2 ^ 32 ≠ Pages.bytes m.pages := by
  refine ⟨rfl, ?_⟩
  have h2 : Pages.bytes m.pages % 2 ^ 32 < 2 ^ 32 :=
    Nat.mod_lt _ (by norm_num)
  omega

/-- Witness for `c10_data_length_truncation`: a 65536-page (4 GiB) memory. -/
theorem c10_data_length_truncation_witness :
    4294967295 < Pages.bytes (Memory.mk 65536 0).pages ∧
    (wasmer_memory_data_length (some (Memory.mk 65536 0))
        = some (Pages.bytes (Memory.mk 65536 0).pages % 2 ^ 32) ∧
     Pages.bytes (Memory.mk 65536 0).pages % 2 ^ 32
        ≠ Pages.bytes (Memory.mk 65536 0).pages) :=
  ⟨by decide, c10_data_length_truncation (Memory.mk 65536 0) (by decide)⟩

end Wasmer
